import Mathlib

/-!
Verification development for the TERI robot's command dispatch and
temporal-event memory subsystem (`src/TERI/temporal_memory.py` and
`src/TERI/commands.py`).

Python naive `datetime` values are modelled as `Nat` microseconds since an
epoch wherever the code only compares, adds offsets to, or truncates
timestamps (naive datetimes have uniform 86400-second days, so this is
faithful for those operations).  For the persistence layer, where CPython's
`datetime` object is a record of calendar fields read by `isoformat`, a
seven-field calendar record is used instead.

Python regular-expression searches used by the code are embedded as
dedicated leftmost-match scanners with the same backtracking semantics as
`re.search` on the concrete patterns appearing in the source.  Character
classes are modelled at ASCII level (`\w` = alphanumeric or underscore,
`\s` = ASCII whitespace, `\d` = ASCII digits).
-/

/-- Microseconds per second. -/
def usecSecond : Nat := 1000000

/-- Microseconds per minute. -/
def usecMinute : Nat := 60 * usecSecond

/-- Microseconds per hour. -/
def usecHour : Nat := 60 * usecMinute

/-- Microseconds per day (naive datetimes: uniform 86400-second days). -/
def usecDay : Nat := 24 * usecHour

/-- Truncate a timestamp to midnight of its day: the timestamp part shared by
`d.replace(hour=..., minute=..., second=0, microsecond=0)`. -/
def dayFloor (t : Nat) : Nat := t / usecDay * usecDay

/-- ASCII word character, the model of the regex class `\w`. -/
def isWordChar (c : Char) : Bool := c.isAlphanum || c = '_'

/-- ASCII whitespace, the model of the regex class `\s` and of the character
set removed by Python's `str.strip()`. -/
def isSpaceChar (c : Char) : Bool :=
  c = ' ' || c = '\t' || c = '\n' || c = '\r' || c = '\x0b' || c = '\x0c'

/-- Word-ness of an optional character; positions outside the text count as
non-word for `\b` purposes. -/
def optIsWord : Option Char → Bool
  | some c => isWordChar c
  | none => false

/-- The regex word-boundary test `\b` between two adjacent positions. -/
def wordBdry (a b : Option Char) : Bool := optIsWord a != optIsWord b

/-- Numeric value of an ASCII digit character. -/
def dVal (c : Char) : Nat := c.toNat - 48

/-- Boolean list-prefix test (model of a literal matching at a position). -/
def prefixOfB : List Char → List Char → Bool
  | [], _ => true
  | _ :: _, [] => false
  | a :: as, b :: bs => a = b && prefixOfB as bs

/-- Python's substring operator `needle in hay` on character lists. -/
def containsSubL (needle : List Char) : List Char → Bool
  | [] => prefixOfB needle []
  | c :: t => prefixOfB needle (c :: t) || containsSubL needle t

/-- Python's substring operator `needle in hay` on strings. -/
def containsSub (needle hay : String) : Bool := containsSubL needle.data hay.data

/-- Python `str.lower()` (ASCII). -/
def lowerStr (s : String) : String := ⟨s.data.map Char.toLower⟩

/-- Python `str.strip()` on character lists. -/
def stripChars (l : List Char) : List Char :=
  ((l.dropWhile isSpaceChar).reverse.dropWhile isSpaceChar).reverse

/-- Python `str.strip()`. -/
def stripStr (s : String) : String := ⟨stripChars s.data⟩

/-- The apostrophe character, used by keyword phrases in the source. -/
def apoChar : Char := Char.ofNat 39

/-- The keyword phrase spelled d-o-n-apostrophe-t followed by " forget". -/
def dontForgetKw : String := "don" ++ String.singleton apoChar ++ "t forget"

/-- The contraction prefix spelled w-h-a-t-apostrophe-s. -/
def whatsKw : String := "what" ++ String.singleton apoChar ++ "s"

/-- Numeric value of a digit string, as Python's `int()` on regex group text. -/
def natOfDigits (l : List Char) : Nat := l.foldl (fun a c => a * 10 + dVal c) 0

/-!
Matcher for the pattern `\b(\d{1,2}):(\d{2})\s*(am|pm)?\b`
(`temporal_memory.py` line 55).  The tail `\s*(am|pm)?\b` is matched with
the backtracking order of `re`: the greedy `\s*` first, then the `am`/`pm`
alternatives, then the empty alternative of `?`.
-/

/-- Match `(am|pm)?\b` at the current position; `prev` is the previous
character, used by the trailing word-boundary test. -/
def ampmOptTail (prev : Char) : List Char → Option (Option Bool)
  | 'a' :: 'm' :: rest =>
    if wordBdry (some 'm') rest.head? then some (some false)
    else if wordBdry (some prev) (some 'a') then some none else none
  | 'p' :: 'm' :: rest =>
    if wordBdry (some 'm') rest.head? then some (some true)
    else if wordBdry (some prev) (some 'p') then some none else none
  | c :: _ => if wordBdry (some prev) (some c) then some none else none
  | [] => if wordBdry (some prev) none then some none else none

/-- Match `\s*(am|pm)?\b` greedily with backtracking over the `\s*` length. -/
def spacesAmpm (prev : Char) : List Char → Option (Option Bool)
  | [] => ampmOptTail prev []
  | c :: rest =>
    if isSpaceChar c then
      match spacesAmpm c rest with
      | some r => some r
      | none => ampmOptTail prev (c :: rest)
    else ampmOptTail prev (c :: rest)

/-- Attempt `\b(\d{1,2}):(\d{2})\s*(am|pm)?\b` at one position; the
`\d{1,2}` group is greedy (two digits tried before one). -/
def matchTimeColon (prev : Option Char) (l : List Char) : Option (Nat × Nat × Option Bool) :=
  if optIsWord prev then none else
  match l with
  | [] => none
  | c1 :: rest =>
    if c1.isDigit then
      let cont := fun (hv : Nat) (l2 : List Char) =>
        match l2 with
        | ':' :: d1 :: d2 :: rest2 =>
          if d1.isDigit && d2.isDigit then
            match spacesAmpm d2 rest2 with
            | some ap => some (hv, dVal d1 * 10 + dVal d2, ap)
            | none => none
          else none
        | _ => none
      match rest with
      | c2 :: rest2 =>
        if c2.isDigit then
          match cont (dVal c1 * 10 + dVal c2) rest2 with
          | some r => some r
          | none => cont (dVal c1) rest
        else cont (dVal c1) rest
      | [] => none
    else none

/-- `re.search` scan for `\b(\d{1,2}):(\d{2})\s*(am|pm)?\b`: leftmost
position whose attempt succeeds. -/
def searchTimeColon : Option Char → List Char → Option (Nat × Nat × Option Bool)
  | prev, [] => matchTimeColon prev []
  | prev, c :: rest =>
    match matchTimeColon prev (c :: rest) with
    | some r => some r
    | none => searchTimeColon (some c) rest

/-!
Matcher for `\bat\s+(\d{1,2})\s*(am|pm)\b` (`temporal_memory.py` line 56).
The `\s+` and `\s*` groups are matched maximally: shorter alternatives
always leave a whitespace character where a digit or `a`/`p` is required,
so maximal munch is equivalent to the backtracking search.
-/

/-- Match the mandatory `(am|pm)\b`. -/
def ampmReq : List Char → Option Bool
  | 'a' :: 'm' :: rest => if wordBdry (some 'm') rest.head? then some false else none
  | 'p' :: 'm' :: rest => if wordBdry (some 'm') rest.head? then some true else none
  | _ => none

/-- Attempt `\bat\s+(\d{1,2})\s*(am|pm)\b` at one position. -/
def matchAtHour (prev : Option Char) (l : List Char) : Option (Nat × Bool) :=
  if optIsWord prev then none else
  match l with
  | 'a' :: 't' :: rest =>
    let sp := rest.takeWhile isSpaceChar
    let r := rest.dropWhile isSpaceChar
    if sp.isEmpty then none else
    match r with
    | c1 :: r1 =>
      if c1.isDigit then
        let cont := fun (hv : Nat) (l2 : List Char) =>
          match ampmReq (l2.dropWhile isSpaceChar) with
          | some pm => some (hv, pm)
          | none => none
        match r1 with
        | c2 :: r2 =>
          if c2.isDigit then
            match cont (dVal c1 * 10 + dVal c2) r2 with
            | some x => some x
            | none => cont (dVal c1) r1
          else cont (dVal c1) r1
        | [] => cont (dVal c1) r1
      else none
    | [] => none
  | _ => none

/-- `re.search` scan for `\bat\s+(\d{1,2})\s*(am|pm)\b`. -/
def searchAtHour : Option Char → List Char → Option (Nat × Bool)
  | _, [] => none
  | prev, c :: rest =>
    match matchAtHour prev (c :: rest) with
    | some r => some r
    | none => searchAtHour (some c) rest

/-!
Matcher for `\bin\s+(\d+)\s+(minutes?|hours?|days?)\b`
(`temporal_memory.py` line 57).
-/

/-- Match one unit word followed by an optional greedy `s` and `\b`; the last
letter of every unit word is a word character, so the plural-less alternative
can only succeed when the next character is not a word character. -/
def unitMatch (w : List Char) (l : List Char) : Option Bool :=
  if prefixOfB w l then
    match l.drop w.length with
    | 's' :: r2 => if wordBdry (some 's') r2.head? then some true else none
    | r => if optIsWord r.head? then none else some false
  else none

/-- The alternation `(minutes?|hours?|days?)\b`, returning the captured
group text. -/
def unitAlt (l : List Char) : Option String :=
  match unitMatch "minute".data l with
  | some pl => some (if pl then "minutes" else "minute")
  | none =>
  match unitMatch "hour".data l with
  | some pl => some (if pl then "hours" else "hour")
  | none =>
  match unitMatch "day".data l with
  | some pl => some (if pl then "days" else "day")
  | none => none

/-- Attempt `\bin\s+(\d+)\s+(minutes?|hours?|days?)\b` at one position; the
`\s+` and `\d+` groups are maximal, which is equivalent here because the
follow sets are disjoint from the repeated classes. -/
def matchInRel (prev : Option Char) (l : List Char) : Option (Nat × String) :=
  if optIsWord prev then none else
  match l with
  | 'i' :: 'n' :: rest =>
    let sp1 := rest.takeWhile isSpaceChar
    let r1 := rest.dropWhile isSpaceChar
    if sp1.isEmpty then none else
    let ds := r1.takeWhile Char.isDigit
    let r2 := r1.dropWhile Char.isDigit
    if ds.isEmpty then none else
    let sp2 := r2.takeWhile isSpaceChar
    let r3 := r2.dropWhile isSpaceChar
    if sp2.isEmpty then none else
    match unitAlt r3 with
    | some u => some (natOfDigits ds, u)
    | none => none
  | _ => none

/-- `re.search` scan for `\bin\s+(\d+)\s+(minutes?|hours?|days?)\b`. -/
def searchInRel : Option Char → List Char → Option (Nat × String)
  | _, [] => none
  | prev, c :: rest =>
    match matchInRel prev (c :: rest) with
    | some r => some r
    | none => searchInRel (some c) rest

/-!
Matcher for `\b(morning|afternoon|evening|night)\b`
(`temporal_memory.py` line 58).
-/

/-- Match a literal word followed by `\b`. -/
def wordAlt (w : List Char) (l : List Char) : Bool :=
  prefixOfB w l && !optIsWord ((l.drop w.length).head?)

/-- Attempt `\b(morning|afternoon|evening|night)\b` at one position,
alternatives in pattern order. -/
def matchTod (prev : Option Char) (l : List Char) : Option String :=
  if optIsWord prev then none else
  if wordAlt "morning".data l then some "morning"
  else if wordAlt "afternoon".data l then some "afternoon"
  else if wordAlt "evening".data l then some "evening"
  else if wordAlt "night".data l then some "night"
  else none

/-- `re.search` scan for `\b(morning|afternoon|evening|night)\b`. -/
def searchTod : Option Char → List Char → Option String
  | _, [] => none
  | prev, c :: rest =>
    match matchTod prev (c :: rest) with
    | some r => some r
    | none => searchTod (some c) rest

/-!
Matcher for the location pattern `\b(?:at|in|@)\s+([^,.\n]+)` with
`re.IGNORECASE` (`temporal_memory.py` line 237).  It runs on the original
text; only the prepositions compare case-insensitively, the captured group
keeps the original characters.
-/

/-- Characters allowed inside the location capture group `[^,.\n]`. -/
def locCaptChar (c : Char) : Bool := !(c = ',' || c = '.' || c = '\n')

/-- Match `\s+([^,.\n]+)` after a preposition, with the `re` backtracking
order: the greedy `\s+` first; if the capture would be empty, one
whitespace character is given back to the capture group. -/
def afterPrep (l : List Char) : Option (List Char) :=
  let sp := l.takeWhile isSpaceChar
  let r := l.dropWhile isSpaceChar
  if sp.isEmpty then none
  else
    let cap := r.takeWhile locCaptChar
    if !cap.isEmpty then some cap
    else
      match sp.getLast? with
      | some c => if 2 ≤ sp.length then some [c] else none
      | none => none

/-- Attempt `\b(?:at|in|@)\s+([^,.\n]+)` at one position.  The three
alternatives have pairwise distinct first characters, so at most one can
apply; `\b` before `at`/`in` needs a non-word predecessor, before `@` a
word predecessor. -/
def matchLoc (prev : Option Char) (l : List Char) : Option (List Char) :=
  match l with
  | [] => none
  | c0 :: rest0 =>
    if c0.toLower = 'a' then
      match rest0 with
      | c1 :: rest => if c1.toLower = 't' && !optIsWord prev then afterPrep rest else none
      | [] => none
    else if c0.toLower = 'i' then
      match rest0 with
      | c1 :: rest => if c1.toLower = 'n' && !optIsWord prev then afterPrep rest else none
      | [] => none
    else if c0 = '@' then
      (if optIsWord prev then afterPrep rest0 else none)
    else none

/-- `re.search` scan for `\b(?:at|in|@)\s+([^,.\n]+)`. -/
def searchLoc : Option Char → List Char → Option (List Char)
  | _, [] => none
  | prev, c :: rest =>
    match matchLoc prev (c :: rest) with
    | some r => some r
    | none => searchLoc (some c) rest

/-!
Matcher for the duration pattern `(\d+)\s*(minutes?|hours?|hrs?)` on the
lowercased text (`temporal_memory.py` line 241).  It has no word-boundary
anchors.
-/

/-- Match one duration unit word with an optional greedy `s` and no
boundary requirement. -/
def unitMatchNoB (w : List Char) (l : List Char) : Option Bool :=
  if prefixOfB w l then
    match l.drop w.length with
    | 's' :: _ => some true
    | _ => some false
  else none

/-- The alternation `(minutes?|hours?|hrs?)`, alternatives in pattern
order, returning the captured group text. -/
def durUnitAlt (l : List Char) : Option String :=
  match unitMatchNoB "minute".data l with
  | some pl => some (if pl then "minutes" else "minute")
  | none =>
  match unitMatchNoB "hour".data l with
  | some pl => some (if pl then "hours" else "hour")
  | none =>
  match unitMatchNoB "hr".data l with
  | some pl => some (if pl then "hrs" else "hr")
  | none => none

/-- Attempt `(\d+)\s*(minutes?|hours?|hrs?)` at one position. -/
def matchDur (l : List Char) : Option (Nat × String) :=
  match l with
  | [] => none
  | c :: _ =>
    if c.isDigit then
      let ds := l.takeWhile Char.isDigit
      let r := l.dropWhile Char.isDigit
      let r2 := r.dropWhile isSpaceChar
      match durUnitAlt r2 with
      | some u => some (natOfDigits ds, u)
      | none => none
    else none

/-- `re.search` scan for `(\d+)\s*(minutes?|hours?|hrs?)`. -/
def searchDur : List Char → Option (Nat × String)
  | [] => none
  | c :: rest =>
    match matchDur (c :: rest) with
    | some r => some r
    | none => searchDur rest

/-- `re.findall` for the hashtag pattern `#(\w+)` (`temporal_memory.py`
line 175): successive non-overlapping matches, resuming after each match. -/
def findHashtags : List Char → List String
  | [] => []
  | '#' :: rest =>
    let w := rest.takeWhile isWordChar
    if w.isEmpty then findHashtags rest
    else String.mk w :: findHashtags (rest.dropWhile isWordChar)
  | _ :: rest => findHashtags rest
termination_by l => l.length
decreasing_by
  all_goals simp
  exact Nat.lt_succ_of_le (List.dropWhile_sublist isWordChar).length_le

/-- Attempt the volume pattern `volume (\d+)%` (`commands.py` line 237)
at one position. -/
def matchVolPct (l : List Char) : Bool :=
  if prefixOfB "volume ".data l then
    let r := l.drop 7
    let ds := r.takeWhile Char.isDigit
    let r2 := r.dropWhile Char.isDigit
    !ds.isEmpty &&
      (match r2 with
       | '%' :: _ => true
       | _ => false)
  else false

/-- `re.search` scan for `volume (\d+)%`. -/
def searchVolPct : List Char → Bool
  | [] => false
  | c :: rest => matchVolPct (c :: rest) || searchVolPct rest

/-- The `EventType` enumeration (`temporal_memory.py` lines 10-15). -/
inductive EventType where
  | reminder
  | appointment
  | task
  | note
  | recurring
deriving DecidableEq

/-- The `.value` of an `EventType` member. -/
def EventType.value : EventType → String
  | .reminder => "reminder"
  | .appointment => "appointment"
  | .task => "task"
  | .note => "note"
  | .recurring => "recurring"

/-- The `Priority` enumeration (`temporal_memory.py` lines 17-21). -/
inductive Priority where
  | low
  | medium
  | high
  | urgent
deriving DecidableEq

/-- The `.value` of a `Priority` member. -/
def Priority.value : Priority → Nat
  | .low => 1
  | .medium => 2
  | .high => 3
  | .urgent => 4

/-- The `TemporalEvent` dataclass (`temporal_memory.py` lines 23-45),
generic over the timestamp representation: `Nat` microseconds for the
behavioural model, a calendar record for the persistence model. -/
structure TemporalEvent (δ : Type) where
  id : String
  text : String
  event_type : EventType
  date_time : δ
  priority : Priority
  completed : Bool
  tags : List String
  location : String
  duration_minutes : Nat
  recurring_pattern : String
  created_at : δ
  last_modified : δ
deriving DecidableEq

/-- Lookup in an insertion-ordered string-keyed mapping (Python `dict`). -/
def dictGet {α : Type} (k : String) : List (String × α) → Option α
  | [] => none
  | (k2, v) :: rest => if k2 = k then some v else dictGet k rest

/-- `dict` assignment: replace the value at an existing key in place,
otherwise append at the end. -/
def dictInsert {α : Type} (k : String) (v : α) : List (String × α) → List (String × α)
  | [] => [(k, v)]
  | (k2, v2) :: rest => if k2 = k then (k, v) :: rest else (k2, v2) :: dictInsert k v rest

/-- `del d[k]`: remove the entry at a key. -/
def dictErase {α : Type} (k : String) : List (String × α) → List (String × α)
  | [] => []
  | (k2, v2) :: rest => if k2 = k then rest else (k2, v2) :: dictErase k rest

/-- The `type_keywords` table (`temporal_memory.py` lines 70-76), in
dictionary insertion order. -/
def typeKeywords : List (EventType × List String) :=
  [(.reminder, ["remind", "remember", dontForgetKw]),
   (.appointment, ["meeting", "appointment", "call", "visit"]),
   (.task, ["task", "do", "complete", "finish", "work on"]),
   (.note, ["note", "write down", "record"]),
   (.recurring, ["every", "daily", "weekly", "monthly", "recurring"])]

/-- `_determine_event_type` (lines 150-158): first keyword set with a
substring hit on the lowercased text wins, default `REMINDER`. -/
def determineEventType (text : String) : EventType :=
  let tl := lowerStr text
  match typeKeywords.find? (fun p => p.2.any (fun k => containsSub k tl)) with
  | some p => p.1
  | none => .reminder

/-- The `priority_keywords` table (lines 62-67), in dictionary insertion
order. -/
def priorityKeywords : List (Priority × List String) :=
  [(.urgent, ["urgent", "asap", "immediately", "emergency", "critical"]),
   (.high, ["important", "high priority", "soon", "quickly"]),
   (.medium, ["medium", "normal", "regular"]),
   (.low, ["low", "sometime", "when possible", "eventually"])]

/-- `_determine_priority` (lines 160-168), default `MEDIUM`. -/
def determinePriority (text : String) : Priority :=
  let tl := lowerStr text
  match priorityKeywords.find? (fun p => p.2.any (fun k => containsSub k tl)) with
  | some p => p.1
  | none => .medium

/-- The `category_keywords` table inside `_extract_tags` (lines 179-185). -/
def categoryKeywords : List (String × List String) :=
  [("work", ["work", "office", "meeting", "project", "deadline"]),
   ("personal", ["personal", "family", "friend", "home"]),
   ("health", ["doctor", "dentist", "gym", "exercise", "medicine"]),
   ("shopping", ["buy", "purchase", "store", "market", "shopping"]),
   ("travel", ["flight", "trip", "vacation", "travel", "hotel"])]

/-- `_extract_tags` (lines 170-192).  Python's final `list(set(tags))` has
unspecified order; it is modelled as first-occurrence deduplication. -/
def extractTags (text : String) : List String :=
  let tags := findHashtags text.data
  let tl := lowerStr text
  let tags := tags ++
    (categoryKeywords.filter (fun p => p.2.any (fun k => containsSub k tl))).map Prod.fst
  tags.eraseDups

/-- The AM/PM adjustment of `_parse_time` (lines 78-90); `ampm` is the
optional third group, `true` meaning `pm`. -/
def parseTimeAdjust (hour : Nat) (ampm : Option Bool) : Nat :=
  match ampm with
  | some true => if hour ≠ 12 then hour + 12 else hour
  | some false => if hour = 12 then 0 else hour
  | none => hour

/-- The AM/PM adjustment of `_parse_hour_ampm` (lines 92-102). -/
def parseHourAdjust (hour : Nat) (pm : Bool) : Nat :=
  if pm && hour ≠ 12 then hour + 12
  else if !pm && hour = 12 then 0
  else hour

/-- `_parse_relative_time` (lines 104-116), as a microsecond offset. -/
def parseRelativeDelta (amount : Nat) (unit : String) : Nat :=
  if containsSub "minute" unit then amount * usecMinute
  else if containsSub "hour" unit then amount * usecHour
  else if containsSub "day" unit then amount * usecDay
  else 0

/-- `_parse_time_of_day` (lines 118-127). -/
def todTime (s : String) : Nat × Nat :=
  if s = "morning" then (9, 0)
  else if s = "afternoon" then (14, 0)
  else if s = "evening" then (18, 0)
  else if s = "night" then (20, 0)
  else (12, 0)

/-- `datetime.replace(hour=h, minute=m)` on a timestamp whose second and
microsecond are already zero; raises `ValueError` (the `.error` case) when
a component is out of range. -/
def replaceHM (t : Nat) (h m : Nat) : Except Unit Nat :=
  if h ≤ 23 && m ≤ 59 then .ok (dayFloor t + h * usecHour + m * usecMinute)
  else .error ()

/-- `_extract_time_from_text` (lines 129-148): the four `time_patterns`
are tried in dictionary insertion order and the first `re.search` hit is
applied; the relative pattern replaces the whole timestamp starting from
`datetime.now()` (`tNow`), the others overwrite hour and minute of the
noon-normalized base date. -/
def extractTimeFromText (tNow : Nat) (text : String) (base : Nat) : Except Unit Nat :=
  let tl := (lowerStr text).data
  let result := dayFloor base + 12 * usecHour
  match searchTimeColon none tl with
  | some (h, m, ap) => replaceHM result (parseTimeAdjust h ap) m
  | none =>
  match searchAtHour none tl with
  | some (h, pm) => replaceHM result (parseHourAdjust h pm) 0
  | none =>
  match searchInRel none tl with
  | some (amt, u) => .ok (tNow + parseRelativeDelta amt u)
  | none =>
  match searchTod none tl with
  | some w => replaceHM result (todTime w).1 (todTime w).2
  | none => .ok result

/-- The relative-day base-date selection of `_parse_enhanced_date`
(lines 196-216).  `today` is the `datetime.today()` reading; `dp` is the
result of the external `dateparser.parse` collaborator (`none` when it
fails to resolve). -/
def parseEnhancedDateBase (today : Nat) (dp : Option Nat) (text : String) : Nat :=
  let tl := lowerStr text
  if containsSub "tomorrow" tl then today + usecDay
  else if ["today", "tonight", "this afternoon", "this morning"].any
      (fun w => containsSub w tl) then today
  else if containsSub "day after tomorrow" tl then today + 2 * usecDay
  else if containsSub "next week" tl then today + 7 * usecDay
  else if containsSub "next month" tl then today + 30 * usecDay
  else
    match dp with
    | some d => d
    | none => today

/-- `_parse_enhanced_date` (lines 194-219). -/
def parseEnhancedDate (tNow today : Nat) (dp : Option Nat) (text : String) : Except Unit Nat :=
  extractTimeFromText tNow text (parseEnhancedDateBase today dp text)

/-- The location extraction inside `save_event` (lines 237-238). -/
def extractLocation (text : String) : String :=
  match searchLoc none text.data with
  | some cap => ⟨stripChars cap⟩
  | none => ""

/-- The duration extraction inside `save_event` (lines 241-246). -/
def extractDuration (text : String) : Nat :=
  match searchDur (lowerStr text).data with
  | some (amt, u) =>
    amt * (if containsSub "hour" u || containsSub "hr" u then 60 else 1)
  | none => 0

/-- A digit character. -/
def digitChar (n : Nat) : Char := Char.ofNat (48 + n)

/-- Zero-padded two-digit decimal of `n < 100` (Python `%02d`). -/
def pad2 (n : Nat) : List Char := [digitChar (n / 10), digitChar (n % 10)]

/-- Zero-padded four-digit decimal of `n < 10000` (Python `%04d`). -/
def pad4 (n : Nat) : List Char := pad2 (n / 100) ++ pad2 (n % 100)

/-- Zero-padded six-digit decimal of `n < 1000000` (Python `%06d`). -/
def pad6 (n : Nat) : List Char := pad2 (n / 10000) ++ pad2 (n / 100 % 100) ++ pad2 (n % 100)

/-- Calendar date of a day number (days since 1970-01-01), by the standard
civil-from-days computation; models the date part CPython prints for
`strftime`. -/
def civilFromDays (z0 : Nat) : Nat × Nat × Nat :=
  let z := z0 + 719468
  let era := z / 146097
  let doe := z % 146097
  let yoe := (doe - doe / 1460 + doe / 36524 - doe / 146096) / 365
  let y := yoe + era * 400
  let doy := doe - (365 * yoe + yoe / 4 - yoe / 100)
  let mp := (5 * doy + 2) / 153
  let d := doy - (153 * mp + 2) / 5 + 1
  let m := if mp < 10 then mp + 3 else mp - 9
  (if m ≤ 2 then y + 1 else y, m, d)

/-- The generated event id
`f"event_{datetime.now().strftime('%Y%m%d_%H%M%S')}_{len(self.events)}"`
(`temporal_memory.py` line 226). -/
def genEventId (tId : Nat) (storeLen : Nat) : String :=
  let ymd := civilFromDays (tId / usecDay)
  let rem := tId % usecDay
  ⟨"event_".data ++ pad4 ymd.1 ++ pad2 ymd.2.1 ++ pad2 ymd.2.2 ++ '_' ::
    (pad2 (rem / usecHour) ++ pad2 (rem % usecHour / usecMinute) ++
     pad2 (rem % usecMinute / usecSecond)) ++ '_' :: (Nat.repr storeLen).data⟩

/-- The in-memory store together with its persisted file.  The file
payload is abstracted to a snapshot of the event map here; its concrete
record shape is modelled separately for the round-trip analysis. -/
structure MemState where
  events : List (String × TemporalEvent Nat)
  file : List (String × TemporalEvent Nat)
deriving DecidableEq

/-- `save_to_file` (lines 411-429): any exception while writing is caught
inside the method and only logged (`ioFail` true models a raising write),
so callers never observe a persistence failure. -/
def save_to_file (ioFail : Bool) (st : MemState) : MemState :=
  if ioFail then st else { st with file := st.events }

/-- `save_event` (lines 221-268).  Clock reads are explicit: `tId` for the
id-generating `now()`, `today`/`tNow` for the reads inside
`_parse_enhanced_date`/`_extract_time_from_text`, and `t1`, `t2` for the
two `now()` calls of `__post_init__` that initialize `created_at` and
`last_modified`.  `dp` is the external `dateparser` result and `ioFail`
tells whether the storage write raises.  The bare `except` of the source
is the `.error` branch: the function returns `""` with the state
untouched.  Python falsiness of `event_id` makes an explicit `""` id
regenerate. -/
def save_event (tId today tNow t1 t2 : Nat) (dp : Option Nat) (ioFail : Bool)
    (st : MemState) (text : String) (event_id : Option String) : MemState × String :=
  let eid := match event_id with
    | some s => if s = "" then genEventId tId st.events.length else s
    | none => genEventId tId st.events.length
  match parseEnhancedDate tNow today dp text with
  | .error _ => (st, "")
  | .ok dt =>
    let ev : TemporalEvent Nat := {
      id := eid
      text := text
      event_type := determineEventType text
      date_time := dt
      priority := determinePriority text
      completed := false
      tags := extractTags text
      location := extractLocation text
      duration_minutes := extractDuration text
      recurring_pattern := ""
      created_at := t1
      last_modified := t2 }
    let st2 := save_to_file ioFail { st with events := dictInsert eid ev st.events }
    (st2, eid)

/-- The sort key order of `get_upcoming_events`
(`key=lambda e: (e.date_time, -e.priority.value)`, line 297): ascending
date, then descending priority value. -/
def upcomingLE (a b : TemporalEvent Nat) : Bool :=
  decide (a.date_time < b.date_time) ||
    (decide (a.date_time = b.date_time) && decide (b.priority.value ≤ a.priority.value))

/-- `get_upcoming_events` (lines 286-298).  `list.sort` is a stable sort
by the key above; `List.mergeSort` is stable for the same total preorder,
so it produces the identical list. -/
def get_upcoming_events (tNow : Nat) (days_ahead : Nat)
    (events : List (String × TemporalEvent Nat)) : List (TemporalEvent Nat) :=
  let end_date := tNow + days_ahead * usecDay
  let upcoming := (events.map Prod.snd).filter
    (fun e => (decide (tNow ≤ e.date_time) && decide (e.date_time ≤ end_date)) && !e.completed)
  upcoming.mergeSort upcomingLE

/-- `complete_event` (lines 329-337). -/
def complete_event (tNow : Nat) (ioFail : Bool) (event_id : String) (st : MemState) :
    MemState × Bool :=
  match dictGet event_id st.events with
  | some e =>
    let e2 := { e with completed := true, last_modified := tNow }
    (save_to_file ioFail { st with events := dictInsert event_id e2 st.events }, true)
  | none => (st, false)

/-- `delete_event` (lines 339-346). -/
def delete_event (ioFail : Bool) (event_id : String) (st : MemState) : MemState × Bool :=
  match dictGet event_id st.events with
  | some _ =>
    (save_to_file ioFail { st with events := dictErase event_id st.events }, true)
  | none => (st, false)

/-- The keyword arguments accepted by `update_event`: `setattr` can hit
any dataclass field, each optionally supplied. -/
structure UpdateKwargs where
  id : Option String := none
  text : Option String := none
  event_type : Option EventType := none
  date_time : Option Nat := none
  priority : Option Priority := none
  completed : Option Bool := none
  tags : Option (List String) := none
  location : Option String := none
  duration_minutes : Option Nat := none
  recurring_pattern : Option String := none
  created_at : Option Nat := none
  last_modified : Option Nat := none

/-- The `setattr` loop of `update_event` (lines 352-354). -/
def applyKwargs (kw : UpdateKwargs) (e : TemporalEvent Nat) : TemporalEvent Nat :=
  { id := kw.id.getD e.id
    text := kw.text.getD e.text
    event_type := kw.event_type.getD e.event_type
    date_time := kw.date_time.getD e.date_time
    priority := kw.priority.getD e.priority
    completed := kw.completed.getD e.completed
    tags := kw.tags.getD e.tags
    location := kw.location.getD e.location
    duration_minutes := kw.duration_minutes.getD e.duration_minutes
    recurring_pattern := kw.recurring_pattern.getD e.recurring_pattern
    created_at := kw.created_at.getD e.created_at
    last_modified := kw.last_modified.getD e.last_modified }

/-- `update_event` (lines 348-359): kwargs are applied first, then
`last_modified` is overwritten with the current time. -/
def update_event (tNow : Nat) (ioFail : Bool) (event_id : String) (kw : UpdateKwargs)
    (st : MemState) : MemState × Bool :=
  match dictGet event_id st.events with
  | some e =>
    let e2 := { applyKwargs kw e with last_modified := tNow }
    (save_to_file ioFail { st with events := dictInsert event_id e2 st.events }, true)
  | none => (st, false)

/-- `clear_expired` (lines 395-409).  The cutoff `now - timedelta(days=d)`
is taken within the nonnegative microsecond timeline (all reachable
timestamps here are nonnegative). -/
def clear_expired (tNow : Nat) (days_old : Nat) (ioFail : Bool) (st : MemState) : MemState :=
  let cutoff := tNow - days_old * usecDay
  let expired := (st.events.filter
    (fun p => p.2.completed && decide (p.2.date_time < cutoff))).map Prod.fst
  let events2 := expired.foldl (fun acc k => dictErase k acc) st.events
  if expired.isEmpty then { st with events := events2 }
  else save_to_file ioFail { st with events := events2 }

/-- The contraction prefix spelled y-o-u-apostrophe-r-e. -/
def youreKw : String := "you" ++ String.singleton apoChar ++ "re"

/-- `clean_text` (`commands.py` lines 30-34). -/
def cleanText (s : String) : String :=
  if s = "" then "" else lowerStr (stripStr s)

/-- The `face_triggers` list (`commands.py` lines 443-454). -/
def faceTriggers : List String :=
  ["recognize face", "detect face", "who is here", "who is this", "scan face",
   "identify face", "recognize person", "who am i", "do you know me",
   "facial recognition"]

/-- `handle_face_recognition`'s trigger test (`commands.py` lines 438-460):
any trigger phrase contained in the lowercased command. -/
def faceTriggered (command : String) : Bool :=
  faceTriggers.any (fun t => containsSub t (lowerStr command))

/-- The `place_triggers` list (`commands.py` lines 411-420). -/
def placeTriggers : List String :=
  ["where are we", "where am i", "what place is this", "what place",
   "where is this", "identify location", "recognize place", "what location"]

/-- `handle_place_recognition`'s trigger test (`commands.py`
lines 406-436). -/
def placeTriggered (command : String) : Bool :=
  placeTriggers.any (fun t => containsSub t (lowerStr command))

/-- `handle_sleep_commands`'s trigger test (`commands.py` lines 275-293);
it matches on the raw (non-lowercased) command. -/
def sleepTriggered (command : String) : Bool :=
  ["enter sleep mode", "go to sleep", "sleep mode"].any
    (fun p => containsSub p command) ||
  ["exit sleep mode", "wake up", "stop sleeping"].any
    (fun p => containsSub p command)

/-- The six phrase groups of `handle_temporal_commands` (`commands.py`
lines 295-404), each of which claims the command when hit; the
cancellation group needs a verb phrase and an object phrase together. -/
def temporalTriggered (command : String) : Bool :=
  let cl := lowerStr command
  ["remind me", "remember", dontForgetKw, "appointment", "meeting", "going to",
    "plan to", "schedule", "set a reminder", "add to calendar"].any
      (fun p => containsSub p cl) ||
  [whatsKw ++ " my schedule", "what am i doing", whatsKw ++ " planned",
    "my events", whatsKw ++ " today", whatsKw ++ " tomorrow", whatsKw ++ " next",
    "upcoming events"].any (fun p => containsSub p cl) ||
  ["mark as done", "completed", "finished", "mark complete", "done with"].any
    (fun p => containsSub p cl) ||
  (["cancel", "delete", "remove", "forget about"].any (fun p => containsSub p cl) &&
    ["appointment", "meeting", "event", "reminder", "plan"].any
      (fun p => containsSub p cl)) ||
  ["overdue", "missed", "what did i miss", "past due"].any
    (fun p => containsSub p cl) ||
  ["event stats", "schedule stats", "how many events"].any
    (fun p => containsSub p cl)

/-- `handle_movement_commands`'s trigger test (`commands.py`
lines 245-273), on the raw command. -/
def movementTriggered (c : String) : Bool :=
  (containsSub "forward" c && !containsSub "backward" c) ||
  containsSub "backward" c || containsSub "back up" c ||
  containsSub "turn left" c || containsSub "left turn" c ||
  containsSub "turn right" c || containsSub "right turn" c ||
  containsSub "stop" c || containsSub "halt" c

/-- `handle_volume_control`'s trigger test (`commands.py` lines 225-243),
on the raw command. -/
def volumeTriggered (c : String) : Bool :=
  containsSub "volume up" c || containsSub "volume down" c || searchVolPct c.data

/-- The keys of the `built_in_commands` table (`commands.py` lines 36-112),
in dictionary insertion order. -/
def builtInKeys : List String :=
  ["hello", "hi", "hey", "good morning", "good afternoon", "good evening",
   "good night", "goodbye", "bye", "see you later",
   "what time is it", whatsKw ++ " the time", "what date is it",
   "what day is it", whatsKw ++ " your name", "who are you",
   "what can you do", "how are you", "how old are you",
   "tell me a joke", "joke", "make me laugh", "tell me something funny",
   "fun fact", "interesting fact", "quote", "inspirational quote",
   "motivational quote", "riddle", "tell me a riddle",
   "thank you", "thanks", "good job", youreKw ++ " awesome", "i love you",
   youreKw ++ " smart",
   "battery", "status", "how are your systems", "are you okay", "power level",
   "weather", "is it raining", "temperature",
   "do you dream", "do you have feelings", "are you happy", "do you get lonely",
   whatsKw ++ " your favorite color", whatsKw ++ " your favorite food",
   "help", "what commands do you know", "how do i use you", "commands",
   "sleep status", "are you sleeping"]

/-- `handle_built_in_command`'s trigger test (`commands.py` lines 462-473):
exact match or substring match of a key against the cleaned command. -/
def builtInTriggered (command : String) : Bool :=
  let clean := cleanText command
  builtInKeys.any (fun k => k = clean || containsSub k clean)

/-- The handler domains of the dispatcher. -/
inductive Domain where
  | empty
  | face
  | place
  | sleepMode
  | temporal
  | movement
  | volume
  | builtin
  | ai
deriving DecidableEq

/-- The routing of `handle_command` (`commands.py` lines 475-524): empty or
whitespace-only commands get a random "didn't understand" reply; otherwise
the stripped command is offered to the handlers in the fixed priority
order and the first handler returning `True` claims it, the AI fallback
taking everything else. -/
def classify (command : String) : Domain :=
  if command = "" || stripStr command = "" then .empty
  else
    let c := stripStr command
    if faceTriggered c then .face
    else if placeTriggered c then .place
    else if sleepTriggered c then .sleepMode
    else if temporalTriggered c then .temporal
    else if movementTriggered c then .movement
    else if volumeTriggered c then .volume
    else if builtInTriggered c then .builtin
    else .ai

/-- CPython's naive `datetime` as stored: a record of calendar fields, the
representation read by `isoformat` and built by `fromisoformat`. -/
structure CalDT where
  year : Nat
  month : Nat
  day : Nat
  hour : Nat
  minute : Nat
  second : Nat
  microsecond : Nat
deriving DecidableEq

/-- The range invariants of a Python `datetime` that matter for printing
(day is bounded by 31, a superset of the per-month bound, which is
harmless for the round trip). -/
abbrev ValidCal (d : CalDT) : Prop :=
  1 ≤ d.year ∧ d.year ≤ 9999 ∧ 1 ≤ d.month ∧ d.month ≤ 12 ∧
  1 ≤ d.day ∧ d.day ≤ 31 ∧ d.hour ≤ 23 ∧ d.minute ≤ 59 ∧
  d.second ≤ 59 ∧ d.microsecond ≤ 999999

/-- `datetime.isoformat()` as used by `save_to_file` (lines 418-420),
modelled from the Python library: `YYYY-MM-DDTHH:MM:SS` with a `.ffffff`
fractional part exactly when the microsecond field is nonzero. -/
def isoformatChars (d : CalDT) : List Char :=
  pad4 d.year ++ '-' :: (pad2 d.month ++ '-' :: (pad2 d.day ++ 'T' ::
    (pad2 d.hour ++ ':' :: (pad2 d.minute ++ ':' :: (pad2 d.second ++
      (if d.microsecond = 0 then [] else '.' :: pad6 d.microsecond))))))

/-- `datetime.isoformat()` as a string. -/
def isoformat (d : CalDT) : String := ⟨isoformatChars d⟩

/-- Read two digit characters as a number. -/
def parse2 : List Char → Option (Nat × List Char)
  | c1 :: c2 :: rest =>
    if c1.isDigit && c2.isDigit then some (dVal c1 * 10 + dVal c2, rest) else none
  | _ => none

/-- Read four digit characters as a number. -/
def parse4 (l : List Char) : Option (Nat × List Char) :=
  match parse2 l with
  | some (a, l1) =>
    match parse2 l1 with
    | some (b, l2) => some (a * 100 + b, l2)
    | none => none
  | none => none

/-- Read six digit characters as a number. -/
def parse6 (l : List Char) : Option (Nat × List Char) :=
  match parse2 l with
  | some (a, l1) =>
    match parse2 l1 with
    | some (b, l2) =>
      match parse2 l2 with
      | some (c, l3) => some (a * 10000 + b * 100 + c, l3)
      | none => none
    | none => none
  | none => none

/-- Consume one expected separator character. -/
def expectChar (c : Char) : List Char → Option (List Char)
  | c2 :: rest => if c2 = c then some rest else none
  | [] => none

/-- `datetime.fromisoformat` on character lists, modelled from the Python
library for the canonical strings emitted by `isoformat`: fixed-width
fields, an optional six-digit fraction, and the constructor's range
validation. -/
def fromisoChars (l : List Char) : Option CalDT :=
  match parse4 l with
  | none => none
  | some (y, l1) =>
  match expectChar '-' l1 with
  | none => none
  | some l2 =>
  match parse2 l2 with
  | none => none
  | some (mo, l3) =>
  match expectChar '-' l3 with
  | none => none
  | some l4 =>
  match parse2 l4 with
  | none => none
  | some (da, l5) =>
  match expectChar 'T' l5 with
  | none => none
  | some l6 =>
  match parse2 l6 with
  | none => none
  | some (h, l7) =>
  match expectChar ':' l7 with
  | none => none
  | some l8 =>
  match parse2 l8 with
  | none => none
  | some (mi, l9) =>
  match expectChar ':' l9 with
  | none => none
  | some l10 =>
  match parse2 l10 with
  | none => none
  | some (s, l11) =>
  let usRest : Option (Nat × List Char) :=
    match l11 with
    | [] => some (0, [])
    | '.' :: l12 => parse6 l12
    | _ => none
  match usRest with
  | none => none
  | some (us, l13) =>
  match l13 with
  | _ :: _ => none
  | [] =>
    let d : CalDT := ⟨y, mo, da, h, mi, s, us⟩
    if ValidCal d then some d else none

/-- `datetime.fromisoformat` on strings. -/
def fromisoformat (s : String) : Option CalDT := fromisoChars s.data

/-- The persisted record built for each event by `save_to_file`
(lines 414-424): the `asdict` fields with the three datetimes as ISO
strings and the enums as their `.value`. -/
structure EventDict where
  id : String
  text : String
  event_type : String
  date_time : String
  priority : Nat
  completed : Bool
  tags : List String
  location : String
  duration_minutes : Nat
  recurring_pattern : String
  created_at : String
  last_modified : String
deriving DecidableEq

/-- The per-event serialization of `save_to_file` (lines 415-424). -/
def eventToDict (e : TemporalEvent CalDT) : EventDict :=
  { id := e.id
    text := e.text
    event_type := e.event_type.value
    date_time := isoformat e.date_time
    priority := e.priority.value
    completed := e.completed
    tags := e.tags
    location := e.location
    duration_minutes := e.duration_minutes
    recurring_pattern := e.recurring_pattern
    created_at := isoformat e.created_at
    last_modified := isoformat e.last_modified }

/-- `EventType(value)`: the enum member with the given value, or a raise
(`none`). -/
def EventType.ofValue (s : String) : Option EventType :=
  if s = "reminder" then some .reminder
  else if s = "appointment" then some .appointment
  else if s = "task" then some .task
  else if s = "note" then some .note
  else if s = "recurring" then some .recurring
  else none

/-- `Priority(value)`: the enum member with the given value, or a raise
(`none`). -/
def Priority.ofValue (n : Nat) : Option Priority :=
  if n = 1 then some .low
  else if n = 2 then some .medium
  else if n = 3 then some .high
  else if n = 4 then some .urgent
  else none

/-- The per-event deserialization of `load_from_file` (lines 440-449):
ISO strings back to datetimes, values back to enum members, then
`TemporalEvent(**event_dict)`; a failing conversion raises (`none`). -/
def dictToEvent (d : EventDict) : Option (TemporalEvent CalDT) :=
  match fromisoformat d.date_time with
  | none => none
  | some dt =>
  match fromisoformat d.created_at with
  | none => none
  | some ca =>
  match fromisoformat d.last_modified with
  | none => none
  | some lm =>
  match EventType.ofValue d.event_type with
  | none => none
  | some et =>
  match Priority.ofValue d.priority with
  | none => none
  | some pr =>
    some { id := d.id
           text := d.text
           event_type := et
           date_time := dt
           priority := pr
           completed := d.completed
           tags := d.tags
           location := d.location
           duration_minutes := d.duration_minutes
           recurring_pattern := d.recurring_pattern
           created_at := ca
           last_modified := lm }

/-- The full persisted payload written by `save_to_file` (lines 414-427):
every entry of the event map, serialized. -/
def saveData (events : List (String × TemporalEvent CalDT)) : List (String × EventDict) :=
  events.map (fun p => (p.1, eventToDict p.2))

/-- The loading loop of `load_from_file` (lines 440-449) on a successful
run: every entry deserialized and stored back under its id. -/
def loadData : List (String × EventDict) → Option (List (String × TemporalEvent CalDT))
  | [] => some []
  | (k, d) :: rest =>
    match dictToEvent d with
    | none => none
    | some e =>
      match loadData rest with
      | none => none
      | some es => some ((k, e) :: es)

/-- Validity of all datetime fields of an event. -/
abbrev ValidEvent (e : TemporalEvent CalDT) : Prop :=
  ValidCal e.date_time ∧ ValidCal e.created_at ∧ ValidCal e.last_modified

/-- Uniqueness of keys in a store (the `dict` invariant of `self.events`). -/
abbrev nodupKeys {α : Type} (m : List (String × α)) : Prop := (m.map Prod.fst).Nodup

/-- Between two stores, no event's completed flag became `true` that was
not already `true` under the same id. -/
def noNewCompleted (m1 m2 : List (String × TemporalEvent Nat)) : Prop :=
  ∀ k e2, dictGet k m2 = some e2 → e2.completed = true →
    ∃ e1, dictGet k m1 = some e1 ∧ e1.completed = true

/-- A concrete event used as store content in concrete evaluations. -/
def sampleEvent : TemporalEvent Nat :=
  { id := "e1"
    text := "t"
    event_type := .reminder
    date_time := 0
    priority := .medium
    completed := false
    tags := []
    location := ""
    duration_minutes := 0
    recurring_pattern := ""
    created_at := 0
    last_modified := 0 }

/-- A concrete calendar-dated event used in concrete evaluations of the
persistence layer. -/
def sampleCalEvent : TemporalEvent CalDT :=
  { id := "e1"
    text := "meeting at noon"
    event_type := .appointment
    date_time := ⟨2025, 6, 30, 12, 0, 0, 0⟩
    priority := .high
    completed := false
    tags := ["work"]
    location := "noon"
    duration_minutes := 30
    recurring_pattern := ""
    created_at := ⟨2025, 6, 29, 8, 15, 30, 123456⟩
    last_modified := ⟨2025, 6, 29, 8, 15, 30, 123457⟩ }

/-- `save_to_file` never changes the in-memory event map. -/
theorem save_to_file_events (io : Bool) (st : MemState) :
    (save_to_file io st).events = st.events := by
  cases io <;> rfl

/-- Looking up the key just inserted yields the inserted value. -/
theorem dictGet_insert_self {α : Type} (k : String) (v : α) (m : List (String × α)) :
    dictGet k (dictInsert k v m) = some v := by
  induction m with
  | nil => simp [dictInsert, dictGet]
  | cons p rest ih =>
    obtain ⟨k2, v2⟩ := p
    by_cases h : k2 = k
    · simp [dictInsert, dictGet, h]
    · simp [dictInsert, dictGet, h, ih]

/-- Insertion under one key leaves lookups under other keys unchanged. -/
theorem dictGet_insert_ne {α : Type} {k1 k : String} (v : α) (m : List (String × α))
    (h : k1 ≠ k) : dictGet k1 (dictInsert k v m) = dictGet k1 m := by
  induction m with
  | nil => simp [dictInsert, dictGet, Ne.symm h]
  | cons p rest ih =>
    obtain ⟨k2, v2⟩ := p
    by_cases h2 : k2 = k
    · subst h2
      simp [dictInsert, dictGet, Ne.symm h]
    · simp only [dictInsert, if_neg h2, dictGet]
      by_cases h3 : k2 = k1 <;> simp [h3, ih]

/-- Inserting at a key that is present keeps the store size. -/
theorem dictInsert_length_of_mem {α : Type} {k : String} {w : α} (v : α)
    {m : List (String × α)} (h : dictGet k m = some w) :
    (dictInsert k v m).length = m.length := by
  induction m with
  | nil => simp [dictGet] at h
  | cons p rest ih =>
    obtain ⟨k2, v2⟩ := p
    by_cases h2 : k2 = k
    · simp [dictInsert, h2]
    · simp only [dictGet, if_neg h2] at h
      simp [dictInsert, if_neg h2, ih h]

/-- Erasing one key leaves lookups under other keys unchanged. -/
theorem dictGet_erase_ne {α : Type} {k1 k : String} (m : List (String × α))
    (h : k1 ≠ k) : dictGet k1 (dictErase k m) = dictGet k1 m := by
  induction m with
  | nil => simp [dictErase]
  | cons p rest ih =>
    obtain ⟨k2, v2⟩ := p
    by_cases h2 : k2 = k
    · subst h2
      simp [dictErase, dictGet, Ne.symm h]
    · simp only [dictErase, if_neg h2, dictGet]
      by_cases h3 : k2 = k1 <;> simp [h3, ih]

/-- A key absent from the key list is not found. -/
theorem dictGet_eq_none_of_not_mem {α : Type} {k : String} {m : List (String × α)}
    (h : k ∉ m.map Prod.fst) : dictGet k m = none := by
  induction m with
  | nil => rfl
  | cons p rest ih =>
    obtain ⟨k2, v2⟩ := p
    simp only [List.map_cons, List.mem_cons, not_or] at h
    simp [dictGet, Ne.symm h.1, ih h.2]

/-- The key list of an erased store is a sublist of the original key list. -/
theorem mapFst_erase_sublist {α : Type} (k : String) (m : List (String × α)) :
    ((dictErase k m).map Prod.fst).Sublist (m.map Prod.fst) := by
  induction m with
  | nil => simp [dictErase]
  | cons p rest ih =>
    obtain ⟨k2, v2⟩ := p
    by_cases h2 : k2 = k
    · simp only [dictErase, if_pos h2, List.map_cons]
      exact (List.sublist_cons_self _ _)
    · simp only [dictErase, if_neg h2, List.map_cons]
      exact ih.cons₂ _

/-- Key uniqueness survives erasure. -/
theorem nodupKeys_erase {α : Type} {k : String} {m : List (String × α)}
    (h : nodupKeys m) : nodupKeys (dictErase k m) :=
  List.Nodup.sublist (mapFst_erase_sublist k m) h

/-- With unique keys, an erased key is gone. -/
theorem dictGet_erase_self {α : Type} {k : String} {m : List (String × α)}
    (h : nodupKeys m) : dictGet k (dictErase k m) = none := by
  induction m with
  | nil => rfl
  | cons p rest ih =>
    obtain ⟨k2, v2⟩ := p
    simp only [nodupKeys, List.map_cons, List.nodup_cons] at h
    by_cases h2 : k2 = k
    · subst h2
      simp only [dictErase, if_pos rfl]
      exact dictGet_eq_none_of_not_mem h.1
    · simp only [dictErase, if_neg h2, dictGet, if_neg h2]
      exact ih h.2

/-- With unique keys, everything found after an erasure was already there. -/
theorem dictGet_of_erase {α : Type} {k1 k : String} {v : α} {m : List (String × α)}
    (hnd : nodupKeys m) (h : dictGet k1 (dictErase k m) = some v) :
    dictGet k1 m = some v := by
  by_cases he : k1 = k
  · subst he
    rw [dictGet_erase_self hnd] at h
    exact absurd h (by simp)
  · rwa [dictGet_erase_ne m he] at h

/-- With unique keys, everything found after a batch of erasures was
already there. -/
theorem dictGet_of_foldl_erase {α : Type} {k1 : String} {v : α} (ids : List String)
    {m : List (String × α)} (hnd : nodupKeys m)
    (h : dictGet k1 (ids.foldl (fun acc k => dictErase k acc) m) = some v) :
    dictGet k1 m = some v := by
  induction ids generalizing m with
  | nil => exact h
  | cons i ids ih =>
    simp only [List.foldl_cons] at h
    exact dictGet_of_erase hnd (ih (nodupKeys_erase hnd) h)

/-- Digit characters are digits with the right value. -/
theorem digitChar_spec : ∀ a : Nat, a < 10 →
    (digitChar a).isDigit = true ∧ dVal (digitChar a) = a := by decide

/-- Reading back a zero-padded two-digit number. -/
theorem parse2_pad2 (n : Nat) (h : n < 100) (rest : List Char) :
    parse2 (pad2 n ++ rest) = some (n, rest) := by
  have h1 : n / 10 < 10 := by omega
  have h2 : n % 10 < 10 := by omega
  obtain ⟨d1, e1⟩ := digitChar_spec _ h1
  obtain ⟨d2, e2⟩ := digitChar_spec _ h2
  simp [pad2, parse2, d1, d2, e1, e2]
  omega

/-- Reading back a zero-padded four-digit number. -/
theorem parse4_pad4 (n : Nat) (h : n < 10000) (rest : List Char) :
    parse4 (pad4 n ++ rest) = some (n, rest) := by
  have h1 : n / 100 < 100 := by omega
  have h2 : n % 100 < 100 := by omega
  rw [pad4, List.append_assoc]
  simp only [parse4, parse2_pad2 _ h1, parse2_pad2 _ h2]
  have hn : n / 100 * 100 + n % 100 = n := by omega
  rw [hn]

/-- Reading back a zero-padded six-digit number. -/
theorem parse6_pad6 (n : Nat) (h : n < 1000000) (rest : List Char) :
    parse6 (pad6 n ++ rest) = some (n, rest) := by
  have h1 : n / 10000 < 100 := by omega
  have h2 : n / 100 % 100 < 100 := by omega
  have h3 : n % 100 < 100 := by omega
  rw [pad6, List.append_assoc, List.append_assoc]
  simp only [parse6, parse2_pad2 _ h1, parse2_pad2 _ h2, parse2_pad2 _ h3]
  have hn : n / 10000 * 10000 + n / 100 % 100 * 100 + n % 100 = n := by omega
  rw [hn]

/-- Reading back a zero-padded two-digit number at the end of input. -/
theorem parse2_pad2_nil (n : Nat) (h : n < 100) :
    parse2 (pad2 n) = some (n, []) := by
  have := parse2_pad2 n h []
  simpa using this

/-- Reading back a zero-padded six-digit number at the end of input. -/
theorem parse6_pad6_nil (n : Nat) (h : n < 1000000) :
    parse6 (pad6 n) = some (n, []) := by
  have := parse6_pad6 n h []
  simpa using this

/-- Consuming the expected separator succeeds. -/
theorem expectChar_cons (c : Char) (rest : List Char) :
    expectChar c (c :: rest) = some rest := by
  simp [expectChar]

/-- Parsing the canonical ISO string of a valid datetime restores it. -/
theorem fromisoChars_isoformatChars (d : CalDT) (h : ValidCal d) :
    fromisoChars (isoformatChars d) = some d := by
  obtain ⟨y, mo, da, hh, mi, ss, us⟩ := d
  obtain ⟨h1, h2, h3, h4, h5, h6, h7, h8, h9, h10⟩ := h
  simp only at h1 h2 h3 h4 h5 h6 h7 h8 h9 h10
  by_cases hus : us = 0
  · subst hus
    simp only [isoformatChars, if_pos rfl]
    simp only [fromisoChars, parse4_pad4 y (by omega), expectChar_cons,
      parse2_pad2 mo (by omega), parse2_pad2 da (by omega),
      parse2_pad2 hh (by omega), parse2_pad2 mi (by omega),
      if_true, List.append_nil, parse2_pad2_nil ss (by omega)]
    rw [if_pos]
    exact ⟨h1, h2, h3, h4, h5, h6, h7, h8, h9, Nat.zero_le _⟩
  · simp only [isoformatChars, if_neg hus]
    simp only [fromisoChars, parse4_pad4 y (by omega), expectChar_cons,
      parse2_pad2 mo (by omega), parse2_pad2 da (by omega),
      parse2_pad2 hh (by omega), parse2_pad2 mi (by omega),
      parse2_pad2 ss (by omega), parse6_pad6_nil us (by omega)]
    rw [if_pos]
    exact ⟨h1, h2, h3, h4, h5, h6, h7, h8, h9, h10⟩

/-- Parsing the ISO string of a valid datetime restores it. -/
theorem fromisoformat_isoformat (d : CalDT) (h : ValidCal d) :
    fromisoformat (isoformat d) = some d :=
  fromisoChars_isoformatChars d h

/-- Enum round trip for event types. -/
theorem eventTypeOfValue_value (t : EventType) : EventType.ofValue t.value = some t := by
  cases t <;> rfl

/-- Enum round trip for priorities. -/
theorem priorityOfValue_value (p : Priority) : Priority.ofValue p.value = some p := by
  cases p <;> rfl

/-- Per-event serialization round trip. -/
theorem dictToEvent_eventToDict (e : TemporalEvent CalDT) (h : ValidEvent e) :
    dictToEvent (eventToDict e) = some e := by
  obtain ⟨hd, hc, hl⟩ := h
  rw [dictToEvent, eventToDict]
  simp only [fromisoformat_isoformat _ hd, fromisoformat_isoformat _ hc,
    fromisoformat_isoformat _ hl, eventTypeOfValue_value, priorityOfValue_value]

/-- Transitivity of the `get_upcoming_events` sort order. -/
theorem upcomingLE_trans (a b c : TemporalEvent Nat) :
    upcomingLE a b = true → upcomingLE b c = true → upcomingLE a c = true := by
  simp only [upcomingLE, Bool.or_eq_true, Bool.and_eq_true, decide_eq_true_eq]
  omega

/-- Totality of the `get_upcoming_events` sort order. -/
theorem upcomingLE_total (a b : TemporalEvent Nat) :
    (upcomingLE a b || upcomingLE b a) = true := by
  simp only [upcomingLE, Bool.or_eq_true, Bool.and_eq_true, decide_eq_true_eq]
  omega

/-- The sort order, unfolded to dates and priorities. -/
theorem upcomingLE_iff (a b : TemporalEvent Nat) :
    upcomingLE a b = true ↔
      (a.date_time < b.date_time ∨
        (a.date_time = b.date_time ∧ b.priority.value ≤ a.priority.value)) := by
  simp [upcomingLE]

/-- Re-flooring after adding less than a day changes nothing. -/
theorem dayFloor_add_small (t k : Nat) (h : k < usecDay) :
    dayFloor (dayFloor t + k) = dayFloor t := by
  have hd : usecDay = 86400000000 := rfl
  rw [hd] at h
  unfold dayFloor
  rw [hd]
  omega

/-- A generated event id is never the empty string. -/
theorem genEventId_ne_empty (t n : Nat) : genEventId t n ≠ "" := by
  intro h
  have h2 : (genEventId t n).data = [] := by rw [h]
  rw [genEventId] at h2
  have h3 : "event_".data = ['e', 'v', 'e', 'n', 't', '_'] := rfl
  simp [h3] at h2

/-- C1: the spec says a text containing "day after tomorrow" gets base date
now + 2 days and that the "tomorrow" rule is restricted to texts without
"day after tomorrow"; in the code the `if "tomorrow" in text_lower` branch
is checked first and also matches the substring "tomorrow" of
"day after tomorrow", so the `elif "day after tomorrow"` branch is
unreachable and the base date is now + 1 day. -/
theorem c1_day_after_tomorrow_bug :
    containsSub "day after tomorrow" (lowerStr "day after tomorrow") = true ∧
    parseEnhancedDateBase 0 none "day after tomorrow" = usecDay ∧
    usecDay ≠ 2 * usecDay :=
  ⟨by decide, by decide, by decide⟩

/-- C2 (amended): saving "meeting at the office in 30 minutes" stores an
event with timestamp now + 30 minutes (the relative offset replaces the
full timestamp) and type Appointment, but the location is the full greedy
capture "the office in 30 minutes", not "the office". -/
theorem c2_meeting_in_30_minutes (tId today tNow t1 t2 : Nat) (dp : Option Nat)
    (io : Bool) (st : MemState) :
    ∃ e, dictGet
        (save_event tId today tNow t1 t2 dp io st "meeting at the office in 30 minutes" none).2
        (save_event tId today tNow t1 t2 dp io st "meeting at the office in 30 minutes" none).1.events
        = some e ∧
      e.date_time = tNow + 30 * usecMinute ∧
      e.event_type = EventType.appointment ∧
      e.location = "the office in 30 minutes" := by
  have h1 : searchTimeColon none (lowerStr "meeting at the office in 30 minutes").data
      = none := by decide
  have h2 : searchAtHour none (lowerStr "meeting at the office in 30 minutes").data
      = none := by decide
  have h3 : searchInRel none (lowerStr "meeting at the office in 30 minutes").data
      = some (30, "minutes") := by decide
  have h4 : parseRelativeDelta 30 "minutes" = 30 * usecMinute := by decide
  have hparse : parseEnhancedDate tNow today dp "meeting at the office in 30 minutes"
      = .ok (tNow + 30 * usecMinute) := by
    simp [parseEnhancedDate, extractTimeFromText, h1, h2, h3, h4]
  simp only [save_event, hparse, save_to_file_events]
  exact ⟨_, dictGet_insert_self _ _ _, rfl,
    (by decide : determineEventType "meeting at the office in 30 minutes" = EventType.appointment),
    (by decide : extractLocation "meeting at the office in 30 minutes" = "the office in 30 minutes")⟩

/-- C2 counterexample to the claim as stated: the stored location for
"meeting at the office in 30 minutes" is "the office in 30 minutes",
not "the office". -/
theorem c2_location_cex :
    (dictGet "e2"
      (save_event 0 0 0 0 0 none false ⟨[], []⟩
        "meeting at the office in 30 minutes" (some "e2")).1.events).map
      (fun e => e.location) = some "the office in 30 minutes" ∧
    ("the office in 30 minutes" : String) ≠ "the office" :=
  ⟨by decide, by decide⟩

/-- C3 (amended): saving "remind me tomorrow at 3pm to call mom" stores an
event at tomorrow's date, 15:00, with type Reminder, but the location is
the greedy capture "3pm to call mom", not the empty string. -/
theorem c3_remind_tomorrow_3pm (tId today tNow t1 t2 : Nat) (dp : Option Nat)
    (io : Bool) (st : MemState) :
    ∃ e, dictGet
        (save_event tId today tNow t1 t2 dp io st "remind me tomorrow at 3pm to call mom" none).2
        (save_event tId today tNow t1 t2 dp io st "remind me tomorrow at 3pm to call mom" none).1.events
        = some e ∧
      e.date_time = dayFloor (today + usecDay) + 15 * usecHour ∧
      e.event_type = EventType.reminder ∧
      e.location = "3pm to call mom" := by
  have hb : containsSub "tomorrow" (lowerStr "remind me tomorrow at 3pm to call mom")
      = true := by decide
  have h1 : searchTimeColon none (lowerStr "remind me tomorrow at 3pm to call mom").data
      = none := by decide
  have h2 : searchAtHour none (lowerStr "remind me tomorrow at 3pm to call mom").data
      = some (3, true) := by decide
  have h3 : parseHourAdjust 3 true = 15 := by decide
  have hfl : dayFloor (dayFloor (today + usecDay) + 12 * usecHour)
      = dayFloor (today + usecDay) := dayFloor_add_small _ _ (by decide)
  have hparse : parseEnhancedDate tNow today dp "remind me tomorrow at 3pm to call mom"
      = .ok (dayFloor (today + usecDay) + 15 * usecHour) := by
    simp [parseEnhancedDate, parseEnhancedDateBase, hb, extractTimeFromText,
      h1, h2, h3, replaceHM, hfl]
  simp only [save_event, hparse, save_to_file_events]
  exact ⟨_, dictGet_insert_self _ _ _, rfl,
    (by decide : determineEventType "remind me tomorrow at 3pm to call mom" = EventType.reminder),
    (by decide : extractLocation "remind me tomorrow at 3pm to call mom" = "3pm to call mom")⟩

/-- C3 counterexample to the claim as stated: the stored location for
"remind me tomorrow at 3pm to call mom" is "3pm to call mom", not the
empty string. -/
theorem c3_location_cex :
    (dictGet "e3"
      (save_event 0 0 0 0 0 none false ⟨[], []⟩
        "remind me tomorrow at 3pm to call mom" (some "e3")).1.events).map
      (fun e => e.location) = some "3pm to call mom" ∧
    ("3pm to call mom" : String) ≠ "" :=
  ⟨by decide, by decide⟩

/-- C4 (amended): an utterance containing "where are we" routes to the
place-recognition domain, and no later domain sees it, provided no
face-recognition trigger phrase also matches — face recognition is checked
first in the priority order. -/
theorem c4_where_are_we_place (cmd : String)
    (h1 : containsSub "where are we" (lowerStr (stripStr cmd)) = true)
    (h2 : faceTriggered (stripStr cmd) = false) :
    classify cmd = Domain.place := by
  have hs : ¬ stripStr cmd = "" := by
    intro he
    rw [he] at h1
    exact absurd h1 (by decide)
  have hcmd : ¬ cmd = "" := by
    intro he
    apply hs
    rw [he]
    decide
  have hp : placeTriggered (stripStr cmd) = true := by
    simp [placeTriggered, placeTriggers, h1]
  simp [classify, hs, hcmd, h2, hp]

/-- C4 witness: "where are we" itself satisfies the hypotheses and routes
to place recognition. -/
theorem c4_where_are_we_place_witness :
    containsSub "where are we" (lowerStr (stripStr "where are we")) = true ∧
    faceTriggered (stripStr "where are we") = false ∧
    classify "where are we" = Domain.place :=
  ⟨by decide, by decide, c4_where_are_we_place "where are we" (by decide) (by decide)⟩

/-- C4 counterexample to the claim as stated: "where are we and who is
this" contains "where are we" but is claimed by the face-recognition
domain (checked before place recognition), not by place recognition. -/
theorem c4_face_priority_cex :
    containsSub "where are we" (lowerStr (stripStr "where are we and who is this")) = true ∧
    classify "where are we and who is this" = Domain.face ∧
    classify "where are we and who is this" ≠ Domain.place :=
  ⟨by decide, by decide, by decide⟩

/-- C5: `get_upcoming_events` returns exactly the non-completed events in
the window `[now, now + days_ahead days]` — a permutation of that filter,
with the same membership — sorted ascending by date with ties broken by
descending priority value. -/
theorem c5_upcoming_events_spec (tNow days_ahead : Nat)
    (events : List (String × TemporalEvent Nat)) :
    (get_upcoming_events tNow days_ahead events).Perm
      ((events.map Prod.snd).filter (fun e =>
        (decide (tNow ≤ e.date_time) &&
          decide (e.date_time ≤ tNow + days_ahead * usecDay)) && !e.completed)) ∧
    (∀ e, e ∈ get_upcoming_events tNow days_ahead events ↔
      (e ∈ events.map Prod.snd ∧ tNow ≤ e.date_time ∧
        e.date_time ≤ tNow + days_ahead * usecDay ∧ e.completed = false)) ∧
    (get_upcoming_events tNow days_ahead events).Pairwise
      (fun a b => a.date_time < b.date_time ∨
        (a.date_time = b.date_time ∧ b.priority.value ≤ a.priority.value)) := by
  have hperm : (get_upcoming_events tNow days_ahead events).Perm
      ((events.map Prod.snd).filter (fun e =>
        (decide (tNow ≤ e.date_time) &&
          decide (e.date_time ≤ tNow + days_ahead * usecDay)) && !e.completed)) := by
    unfold get_upcoming_events
    exact List.mergeSort_perm _ _
  refine ⟨hperm, ?_, ?_⟩
  · intro e
    rw [hperm.mem_iff, List.mem_filter]
    simp [and_assoc]
  · have hs := @List.sorted_mergeSort _ upcomingLE upcomingLE_trans upcomingLE_total
      ((events.map Prod.snd).filter (fun e =>
        (decide (tNow ≤ e.date_time) &&
          decide (e.date_time ≤ tNow + days_ahead * usecDay)) && !e.completed))
    unfold get_upcoming_events
    exact hs.imp (fun h => (upcomingLE_iff _ _).mp h)

/-- C6: serializing every stored event to its persisted record (ISO-8601
timestamps, enum values) and deserializing reproduces the event map
exactly, for any store whose datetimes are valid. -/
theorem c6_roundtrip (events : List (String × TemporalEvent CalDT))
    (h : ∀ p ∈ events, ValidEvent p.2) :
    loadData (saveData events) = some events := by
  induction events with
  | nil => rfl
  | cons p rest ih =>
    obtain ⟨k, e⟩ := p
    have he : ValidEvent e := h _ (List.mem_cons_self _ _)
    have hr : ∀ q ∈ rest, ValidEvent q.2 := fun q hq => h q (List.mem_cons_of_mem _ hq)
    have ihr := ih hr
    simp only [saveData] at ihr
    simp [saveData, loadData, dictToEvent_eventToDict e he, ihr]

/-- C6 witness: a concrete one-event store round-trips. -/
theorem c6_roundtrip_witness :
    (∀ p ∈ [("e1", sampleCalEvent)], ValidEvent p.2) ∧
    loadData (saveData [("e1", sampleCalEvent)]) = some [("e1", sampleCalEvent)] :=
  ⟨by decide, c6_roundtrip _ (by decide)⟩

/-- Nothing is newly completed when nothing changed. -/
theorem noNewCompleted_refl (m : List (String × TemporalEvent Nat)) :
    noNewCompleted m m := fun _ e2 hget hcomp => ⟨e2, hget, hcomp⟩

/-- Inserting a non-completed event never paints anything completed. -/
theorem noNewCompleted_insert_false (m : List (String × TemporalEvent Nat))
    (k : String) (v : TemporalEvent Nat) (hv : v.completed = false) :
    noNewCompleted m (dictInsert k v m) := by
  intro k2 e2 hget hcomp
  by_cases hk : k2 = k
  · subst hk
    rw [dictGet_insert_self] at hget
    injection hget with he
    rw [← he, hv] at hcomp
    cases hcomp
  · rw [dictGet_insert_ne _ _ hk] at hget
    exact ⟨e2, hget, hcomp⟩

/-- The event map produced by `clear_expired` is the batch erasure of the
expired ids. -/
theorem clear_expired_events (tC : Nat) (days_old : Nat) (io : Bool) (st : MemState) :
    (clear_expired tC days_old io st).events =
      ((st.events.filter (fun p => p.2.completed &&
          decide (p.2.date_time < tC - days_old * usecDay))).map Prod.fst).foldl
        (fun acc k => dictErase k acc) st.events := by
  simp only [clear_expired]
  split <;> simp [save_to_file_events]

/-- C7 (amended): with a failing storage write, `save_event` still returns
the (nonempty) event id — `save_to_file` swallows I/O errors internally —
and the persisted file is left as it was; the empty-string failure
indicator is returned exactly when the date parse raises. -/
theorem c7_io_error_swallowed (tId today tNow t1 t2 : Nat) (dp : Option Nat)
    (st : MemState) (text : String) (event_id : Option String) :
    (save_event tId today tNow t1 t2 dp true st text event_id).1.file = st.file ∧
    ((save_event tId today tNow t1 t2 dp true st text event_id).2 = "" ↔
      parseEnhancedDate tNow today dp text = Except.error ()) := by
  cases hp : parseEnhancedDate tNow today dp text with
  | error u =>
    cases u
    simp [save_event, hp]
  | ok dt =>
    refine ⟨by simp [save_event, hp, save_to_file], ?_⟩
    simp only [save_event, hp]
    constructor
    · intro h
      exfalso
      rcases event_id with _ | s
      · exact genEventId_ne_empty _ _ h
      · by_cases hs : s = ""
        · simp only [hs, if_pos rfl] at h
          exact genEventId_ne_empty _ _ h
        · simp only [if_neg hs] at h
          exact hs h
    · intro h
      cases h

/-- C7 counterexample to the claim as stated: on a persistence failure
(`save_to_file` raising) for "buy milk", the caller receives the valid id
"e7", not the empty-string failure indicator, while the file is left
stale and the in-memory store has the event. -/
theorem c7_io_failure_cex :
    (save_event 0 0 5 0 1 none true ⟨[], []⟩ "buy milk" (some "e7")).2 = "e7" ∧
    (save_event 0 0 5 0 1 none true ⟨[], []⟩ "buy milk" (some "e7")).1.file = [] ∧
    (save_event 0 0 5 0 1 none true ⟨[], []⟩ "buy milk" (some "e7")).1.events.length = 1 ∧
    ("e7" : String) ≠ "" :=
  ⟨by decide, by decide, by decide, by decide⟩

/-- C8 (amended): among the mutating store operations, only
`complete_event` — and `update_event` when its kwargs include
`completed=True` — can turn an event's completed flag on; `save_event`,
`delete_event`, `clear_expired`, and `update_event` without a
`completed=True` kwarg never do. -/
theorem c8_completed_only_explicit (tId today tNow t1 t2 tC tU : Nat) (dp : Option Nat)
    (io1 io2 io3 io4 : Bool) (st : MemState) (text : String) (event_id : Option String)
    (kd ku : String) (kw : UpdateKwargs) (days_old : Nat)
    (hnd : nodupKeys st.events)
    (hkw : kw.completed = none ∨ kw.completed = some false) :
    noNewCompleted st.events (save_event tId today tNow t1 t2 dp io1 st text event_id).1.events ∧
    noNewCompleted st.events (delete_event io2 kd st).1.events ∧
    noNewCompleted st.events (clear_expired tC days_old io3 st).events ∧
    noNewCompleted st.events (update_event tU io4 ku kw st).1.events := by
  refine ⟨?_, ?_, ?_, ?_⟩
  · cases hp : parseEnhancedDate tNow today dp text with
    | error u =>
      intro k2 e2 hget hcomp
      simp only [save_event, hp] at hget
      exact ⟨e2, hget, hcomp⟩
    | ok dt =>
      intro k2 e2 hget hcomp
      simp only [save_event, hp, save_to_file_events] at hget
      exact noNewCompleted_insert_false _ _ _ rfl k2 e2 hget hcomp
  · cases hd : dictGet kd st.events with
    | none =>
      intro k2 e2 hget hcomp
      simp only [delete_event, hd] at hget
      exact ⟨e2, hget, hcomp⟩
    | some e =>
      intro k2 e2 hget hcomp
      simp only [delete_event, hd, save_to_file_events] at hget
      exact ⟨e2, dictGet_of_erase hnd hget, hcomp⟩
  · intro k2 e2 hget hcomp
    rw [clear_expired_events] at hget
    exact ⟨e2, dictGet_of_foldl_erase _ hnd hget, hcomp⟩
  · cases hu : dictGet ku st.events with
    | none =>
      intro k2 e2 hget hcomp
      simp only [update_event, hu] at hget
      exact ⟨e2, hget, hcomp⟩
    | some e =>
      intro k2 e2 hget hcomp
      simp only [update_event, hu, save_to_file_events] at hget
      by_cases hk : k2 = ku
      · subst hk
        rw [dictGet_insert_self] at hget
        injection hget with he
        rw [← he] at hcomp
        simp only [applyKwargs] at hcomp
        rcases hkw with h | h <;> rw [h] at hcomp
        · exact ⟨e, hu, hcomp⟩
        · simp at hcomp
      · rw [dictGet_insert_ne _ _ hk] at hget
        exact ⟨e2, hget, hcomp⟩

/-- C8 witness: the amended statement applied to a concrete one-event
store and an update whose kwargs do not touch the completed flag. -/
theorem c8_completed_only_explicit_witness :
    nodupKeys (⟨[("e1", sampleEvent)], []⟩ : MemState).events ∧
    (({} : UpdateKwargs).completed = none ∨ ({} : UpdateKwargs).completed = some false) ∧
    (noNewCompleted [("e1", sampleEvent)]
        (save_event 0 0 5 0 1 none false ⟨[("e1", sampleEvent)], []⟩ "buy milk" (some "e9")).1.events ∧
      noNewCompleted [("e1", sampleEvent)]
        (delete_event false "e1" ⟨[("e1", sampleEvent)], []⟩).1.events ∧
      noNewCompleted [("e1", sampleEvent)]
        (clear_expired 7 30 false ⟨[("e1", sampleEvent)], []⟩).events ∧
      noNewCompleted [("e1", sampleEvent)]
        (update_event 9 false "e1" {} ⟨[("e1", sampleEvent)], []⟩).1.events) :=
  ⟨by decide, Or.inl rfl,
    c8_completed_only_explicit 0 0 5 0 1 7 9 none false false false false
      ⟨[("e1", sampleEvent)], []⟩ "buy milk" (some "e9") "e1" "e1" {} 30
      (by decide) (Or.inl rfl)⟩

/-- C8 counterexample to the claim as stated: `update_event` with a
`completed=True` kwarg flips a non-completed event to completed, so the
explicit complete operation is not the only path. -/
theorem c8_update_sets_completed_cex :
    (dictGet "e1" (update_event 5 false "e1" { completed := some true }
        ⟨[("e1", sampleEvent)], []⟩).1.events).map (fun e => e.completed) = some true ∧
    sampleEvent.completed = false :=
  ⟨by decide, by decide⟩

/-- C9 (amended): an event stored by a successful `save_event` and fetched
by the returned id has `completed = false` and `created_at ≤
last_modified`; the two timestamps come from two separate `now()` reads
(`t1` then `t2`) in `__post_init__`, so only the inequality — not exact
equality — is guaranteed under a non-decreasing clock. -/
theorem c9_created_then_modified (tId today tNow t1 t2 : Nat) (dp : Option Nat)
    (io : Bool) (st : MemState) (text : String) (event_id : Option String) (dt : Nat)
    (h12 : t1 ≤ t2)
    (hok : parseEnhancedDate tNow today dp text = Except.ok dt) :
    ∃ e, dictGet (save_event tId today tNow t1 t2 dp io st text event_id).2
        (save_event tId today tNow t1 t2 dp io st text event_id).1.events = some e ∧
      e.completed = false ∧ e.created_at ≤ e.last_modified ∧
      e.created_at = t1 ∧ e.last_modified = t2 := by
  simp only [save_event, hok, save_to_file_events]
  exact ⟨_, dictGet_insert_self _ _ _, rfl, h12, rfl, rfl⟩

/-- C9 witness: a concrete successful save with clock reads 0 then 1. -/
theorem c9_created_then_modified_witness :
    (0 : Nat) ≤ 1 ∧
    parseEnhancedDate 5 0 none "buy milk" = Except.ok 43200000000 ∧
    (∃ e, dictGet (save_event 0 0 5 0 1 none false ⟨[], []⟩ "buy milk" (some "e9")).2
        (save_event 0 0 5 0 1 none false ⟨[], []⟩ "buy milk" (some "e9")).1.events = some e ∧
      e.completed = false ∧ e.created_at ≤ e.last_modified ∧
      e.created_at = 0 ∧ e.last_modified = 1) :=
  ⟨by decide, by rfl,
    c9_created_then_modified 0 0 5 0 1 none false ⟨[], []⟩ "buy milk" (some "e9")
      43200000000 (by decide) (by rfl)⟩

/-- C9 counterexample to the claim as stated: with clock reads 0 then 1,
the stored event has `created_at = 0` and `last_modified = 1`, so the
claimed exact equality `last_modified == created_at` fails. -/
theorem c9_two_clock_reads_cex :
    (dictGet "e9" (save_event 0 0 5 0 1 none false ⟨[], []⟩ "buy milk" (some "e9")).1.events).map
      (fun e => (e.created_at, e.last_modified)) = some (0, 1) ∧
    (0 : Nat) ≠ 1 :=
  ⟨by decide, by decide⟩

/-- C10 (amended): `save_event` with an explicit id already in the store
replaces the stored event in place whenever parsing succeeds — same id
returned, store size unchanged, other keys untouched; when the date parse
raises (see the counterexample), it instead returns the empty string and
preserves the store. -/
theorem c10_explicit_id_overwrites (tId today tNow t1 t2 : Nat) (dp : Option Nat)
    (io : Bool) (st : MemState) (text : String) (k : String)
    (e0 : TemporalEvent Nat) (dt : Nat)
    (hk : ¬ k = "") (hpresent : dictGet k st.events = some e0)
    (hok : parseEnhancedDate tNow today dp text = Except.ok dt) :
    (save_event tId today tNow t1 t2 dp io st text (some k)).2 = k ∧
    (save_event tId today tNow t1 t2 dp io st text (some k)).1.events.length
      = st.events.length ∧
    (∃ e, dictGet k (save_event tId today tNow t1 t2 dp io st text (some k)).1.events
        = some e ∧ e.id = k ∧ e.text = text ∧ e.date_time = dt ∧ e.completed = false) ∧
    (∀ k2, k2 ≠ k →
      dictGet k2 (save_event tId today tNow t1 t2 dp io st text (some k)).1.events
        = dictGet k2 st.events) := by
  simp only [save_event, hok, save_to_file_events, if_neg hk]
  refine ⟨trivial, dictInsert_length_of_mem _ hpresent, ?_, ?_⟩
  · exact ⟨_, dictGet_insert_self _ _ _, rfl, rfl, rfl, rfl⟩
  · intro k2 hne
    exact dictGet_insert_ne _ _ hne

/-- C10 witness: a concrete overwrite of id "e1". -/
theorem c10_explicit_id_overwrites_witness :
    ¬ ("e1" : String) = "" ∧
    dictGet "e1" (⟨[("e1", sampleEvent)], []⟩ : MemState).events = some sampleEvent ∧
    parseEnhancedDate 5 0 none "buy milk" = Except.ok 43200000000 ∧
    ((save_event 0 0 5 0 1 none false ⟨[("e1", sampleEvent)], []⟩ "buy milk" (some "e1")).2 = "e1" ∧
      (save_event 0 0 5 0 1 none false ⟨[("e1", sampleEvent)], []⟩ "buy milk" (some "e1")).1.events.length
        = (⟨[("e1", sampleEvent)], []⟩ : MemState).events.length ∧
      (∃ e, dictGet "e1"
          (save_event 0 0 5 0 1 none false ⟨[("e1", sampleEvent)], []⟩ "buy milk" (some "e1")).1.events
          = some e ∧ e.id = "e1" ∧ e.text = "buy milk" ∧ e.date_time = 43200000000 ∧
          e.completed = false) ∧
      (∀ k2, k2 ≠ "e1" →
        dictGet k2
          (save_event 0 0 5 0 1 none false ⟨[("e1", sampleEvent)], []⟩ "buy milk" (some "e1")).1.events
          = dictGet k2 (⟨[("e1", sampleEvent)], []⟩ : MemState).events)) :=
  ⟨by decide, by decide, by rfl,
    c10_explicit_id_overwrites 0 0 5 0 1 none false ⟨[("e1", sampleEvent)], []⟩
      "buy milk" "e1" sampleEvent 43200000000 (by decide) (by decide) (by rfl)⟩

/-- C10 counterexample to the claim as stated: saving the text "77:00"
(whose parsed hour 77 makes `datetime.replace` raise) under the existing
id "e1" does not replace the event — `save_event` returns the empty
string and the store is unchanged. -/
theorem c10_parse_error_preserves_cex :
    (save_event 0 0 5 0 1 none false ⟨[("e1", sampleEvent)], []⟩ "77:00" (some "e1")).2 = "" ∧
    (save_event 0 0 5 0 1 none false ⟨[("e1", sampleEvent)], []⟩ "77:00" (some "e1")).1 =
      ⟨[("e1", sampleEvent)], []⟩ :=
  ⟨by decide, by decide⟩
